import Mathlib

/-
Verification of the multi-provider request/response normalization layer of the
video-analyzer repository (src/api.ts, src/App.tsx).

JavaScript values are shallowly embedded as follows: JS numbers used for media
timestamps are modelled exactly as rationals; JSON objects with optional fields
become structures/inductives with `Option` fields (a missing key and an
explicit `null`/`undefined` both map to `none`, matching JS truthiness checks
on object-typed fields); JS string truthiness (`if (s)`) is the test
`s ≠ ""`; arrays become lists; the in-browser result cache, a JS object keyed
by strings, is a function `String → Option ModeResult`.  Asynchronous code is
embedded by making each suspension point's observed value an explicit input:
the Gemini poll loop consumes the list of successive `files.get` results, and
the frame extractor consumes the video duration together with a capture
function from seek position to encoded frame.
-/

namespace VideoAnalyzer

-- ────────────────────────────────────────────────────────────────────────────
-- Schema normalizer (convertSchemaToOpenAI, src/api.ts lines 218-241)
-- ────────────────────────────────────────────────────────────────────────────

/-- ASCII lower-casing of a string, character by character: the model of
`String.prototype.toLowerCase()` as applied by `convertSchemaToOpenAI` to the
canonical upper-case ASCII type tags (`OBJECT`, `ARRAY`, `STRING`, `NUMBER`). -/
def toLowerCase (s : String) : String := ⟨s.data.map Char.toLower⟩

/-- A canonical JSON-Schema-like node as consumed by `convertSchemaToOpenAI`:
`{type?, description?, required?, properties?, items?}`.  `none` models a
missing (or null/undefined, hence falsy) field. -/
inductive SchemaNode where
  | mk (ty : Option String) (desc : Option String) (req : Option (List String))
       (props : Option (List (String × SchemaNode)))
       (items : Option SchemaNode) : SchemaNode

/-- The `type` field of a schema node. -/
def SchemaNode.tyOf : SchemaNode → Option String
  | .mk t _ _ _ _ => t

/-- The `description` field of a schema node. -/
def SchemaNode.descOf : SchemaNode → Option String
  | .mk _ d _ _ _ => d

/-- The `required` field of a schema node. -/
def SchemaNode.reqOf : SchemaNode → Option (List String)
  | .mk _ _ r _ _ => r

/-- The `properties` field of a schema node, as an ordered key-value list
(JS object insertion order). -/
def SchemaNode.propsOf : SchemaNode → Option (List (String × SchemaNode))
  | .mk _ _ _ p _ => p

/-- The `items` field of a schema node. -/
def SchemaNode.itemsOf : SchemaNode → Option SchemaNode
  | .mk _ _ _ _ i => i

/-- The recursive body of `convertSchemaToOpenAI` (src/api.ts) on a non-null
node.  Field by field, mirroring the source:
`if (schema.type) result.type = schema.type.toLowerCase()` (string truthiness:
a present empty string is falsy and therefore dropped);
`if (schema.description) result.description = schema.description` (likewise);
`if (schema.required) result.required = schema.required` (an array is always
truthy in JS, so a present `required` is copied as-is);
`if (schema.properties)` recursively converts every entry of the map
(an object is always truthy); `if (schema.items)` recursively converts. -/
def SchemaNode.convert : SchemaNode → SchemaNode
  | .mk ty desc req props items =>
    SchemaNode.mk
      (match ty with
        | some t => if t = "" then none else some (toLowerCase t)
        | none => none)
      (match desc with
        | some d => if d = "" then none else some d
        | none => none)
      req
      (match props with
        | some entries =>
            some (entries.attach.map (fun kv => (kv.1.1, SchemaNode.convert kv.1.2)))
        | none => none)
      (match items with
        | some it => some (SchemaNode.convert it)
        | none => none)
termination_by s => sizeOf s
decreasing_by
  · have hm := List.sizeOf_lt_of_mem kv.2
    cases kv with
    | mk v hv =>
      cases v with
      | mk a b => simp_all; omega
  · simp; omega

/-- `convertSchemaToOpenAI(schema)` (src/api.ts lines 218-241): the entry
point is total — `if (!schema) return {}` yields the empty object for a
null/undefined input — and otherwise runs the recursive conversion. -/
def convertSchemaToOpenAI : Option SchemaNode → SchemaNode
  | none => SchemaNode.mk none none none none none
  | some s => s.convert

-- ────────────────────────────────────────────────────────────────────────────
-- Frame stride sub-sampling (inline in generateWithOpenAI /
-- generateWithAnthropic, src/api.ts lines 91-93 and 163-165)
-- ────────────────────────────────────────────────────────────────────────────

/-- The stride sub-sampling of extracted frames shared by the OpenAI and
Anthropic adapters (src/api.ts):
`const maxFrames = 20;`
`const step = Math.max(1, Math.floor(frames.length / maxFrames));`
`frames.filter((_, i) => i % step === 0).slice(0, maxFrames)`. -/
def sampledFrames {α : Type} (frames : List α) : List α :=
  let maxFrames := 20
  let step := max 1 (frames.length / maxFrames)
  (((frames.enum).filter (fun p => p.1 % step == 0)).map Prod.snd).take maxFrames

/-- Proof helper: filtering a list by a predicate on element positions,
counting positions from `m`. -/
def maskFilter {α : Type} (p : Nat → Bool) : List α → Nat → List α
  | [], _ => []
  | a :: t, m => if p m then a :: maskFilter p t (m + 1) else maskFilter p t (m + 1)

/-- Proof helper: keep every `s`-th element of a list, the first kept element
being the one `c` positions from the head. -/
def strideTake {α : Type} (s : Nat) : List α → Nat → List α
  | [], _ => []
  | a :: t, c => if c = 0 then a :: strideTake s t (s - 1) else strideTake s t (c - 1)

-- ────────────────────────────────────────────────────────────────────────────
-- Anthropic adapter user-message content (generateWithAnthropic,
-- src/api.ts lines 160-179)
-- ────────────────────────────────────────────────────────────────────────────

/-- One element of the Anthropic user-message `content` array: either an
inline base64 image block or a text block. -/
inductive AnthropicBlock where
  | image (dataB64 : String) : AnthropicBlock
  | text (t : String) : AnthropicBlock
deriving DecidableEq

/-- Whether a content block is an image block. -/
def AnthropicBlock.isImage : AnthropicBlock → Bool
  | .image _ => true
  | .text _ => false

/-- The `userContent` array built by `generateWithAnthropic` (src/api.ts):
starting from an empty array, if `file.frames` is present and non-empty, the
stride-sampled frames are pushed as base64 image blocks; then the single text
block is pushed last. -/
def anthropicUserContent (frames : Option (List String)) (txt : String) :
    List AnthropicBlock :=
  let imgs : List AnthropicBlock :=
    match frames with
    | some fs => if 0 < fs.length then (sampledFrames fs).map AnthropicBlock.image else []
    | none => []
  imgs ++ [AnthropicBlock.text txt]

-- ────────────────────────────────────────────────────────────────────────────
-- Gemini upload pipeline (uploadFileToGemini, src/api.ts lines 264-287)
-- ────────────────────────────────────────────────────────────────────────────

/-- A handle returned by `client.files.get`: the remote processing `state`
together with the fields the function reads from the final handle. -/
structure GeminiFileHandle where
  state : String
  uri : String
  mimeType : String
deriving DecidableEq

/-- The media payload returned to the app: `{uri, mimeType}` for Gemini, with
`frames` populated client-side for the other providers. -/
structure UploadedFile where
  uri : String
  mimeType : String
  frames : Option (List String) := none
deriving DecidableEq

/-- The fixed poll interval of the upload pipeline:
`setTimeout(resolve, 5000)` (milliseconds). -/
def pollIntervalMs : Nat := 5000

/-- The `while (getFile.state === 'PROCESSING')` loop of `uploadFileToGemini`
(src/api.ts).  The list holds the successive handles returned by
`client.files.get`, the first being the initial read before the loop; each
iteration sleeps `pollIntervalMs` and consumes the next handle.  Returns the
handle at which the loop stops together with the number of sleep-and-poll
iterations performed (accumulated on top of `n`), or `none` when the observed
sequence never leaves `PROCESSING`, in which case the loop does not
terminate. -/
def pollLoop : List GeminiFileHandle → Nat → Option (GeminiFileHandle × Nat)
  | [], _ => none
  | h :: rest, n =>
      if h.state = "PROCESSING" then pollLoop rest (n + 1) else some (h, n)

/-- `uploadFileToGemini` (src/api.ts lines 264-287), from the first
`files.get` read onward: poll while `PROCESSING`; if the final state is
`FAILED`, fail with `new Error('File processing failed.')` (the spec's
ProcessingError); otherwise resolve `{uri, mimeType}` from the final handle.
`none` models the non-terminating run in which the state never leaves
`PROCESSING`. -/
def uploadFileToGemini (handles : List GeminiFileHandle) :
    Option (Except String UploadedFile) :=
  match pollLoop handles 0 with
  | none => none
  | some (h, _) =>
      some (if h.state = "FAILED" then Except.error "File processing failed."
            else Except.ok { uri := h.uri, mimeType := h.mimeType })

/-- Total time spent sleeping in the poll loop: iterations times the fixed
5-second interval. -/
def pollDelay (handles : List GeminiFileHandle) : Option Nat :=
  (pollLoop handles 0).map (fun p => p.2 * pollIntervalMs)

-- ────────────────────────────────────────────────────────────────────────────
-- Frame extraction (extractFrames, src/api.ts lines 291-330)
-- ────────────────────────────────────────────────────────────────────────────

/-- The mutually-recursive `captureFrame` / `seeked`-handler pair of
`extractFrames` (src/api.ts), which alternate strictly so that a single seek
is in flight at a time: while `currentFrame < maxFrames`, seek to
`currentFrame * interval`, then on the seek-completed signal capture the
frame, append it, advance `currentFrame` and continue; once
`currentFrame >= maxFrames`, resolve.  The browser video element is modelled
by the capture function from seek position to encoded base64 frame; the
returned trace lists, in issue order, each seek timestamp paired with the
frame captured there. -/
def captureTrace (capture : ℚ → String) (interval : ℚ) (maxFrames : Nat)
    (currentFrame : Nat) (frames : List (ℚ × String)) : List (ℚ × String) :=
  if _h : maxFrames ≤ currentFrame then frames
  else
    let time : ℚ := (currentFrame : ℚ) * interval
    captureTrace capture interval maxFrames (currentFrame + 1)
      (frames ++ [(time, capture time)])
termination_by maxFrames - currentFrame
decreasing_by omega

/-- `extractFrames(videoElement, maxFrames)` (src/api.ts lines 291-330):
`interval = duration / maxFrames`, then the capture loop starting at frame 0
with an empty accumulator.  JS numbers are modelled exactly as rationals.
The promise resolves the list of captured frames (the second components);
the first components are the seek positions assigned to
`videoElement.currentTime`, in order. -/
def extractFrames (capture : ℚ → String) (duration : ℚ) (maxFrames : Nat) :
    List (ℚ × String) :=
  captureTrace capture (duration / (maxFrames : ℚ)) maxFrames 0 []

-- ────────────────────────────────────────────────────────────────────────────
-- Result cache and mode controller (src/App.tsx)
-- ────────────────────────────────────────────────────────────────────────────

/-- One timecode entry produced by the timecode-style tool calls. -/
structure Timecode where
  time : String
  text : Option String := none
  value : Option ℚ := none
  objects : Option (List String) := none
deriving DecidableEq

/-- A `ModeResult` (src/App.tsx lines 67-70): the tagged union cached per
(provider, model, mode) key. -/
inductive ModeResult where
  | timecodes (tcs : List Timecode) : ModeResult
  | diagram (mermaid : String) (plantuml : String) (summary : Option String) : ModeResult
  | jsonl (contexts : List String) (metadata : Option String) : ModeResult
deriving DecidableEq

/-- `ProviderConfig` (src/api.ts lines 11-15).  The `provider` field is the
runtime string value; the TypeScript union type admits exactly
`gemini`, `openai`, `anthropic`. -/
structure ProviderConfig where
  provider : String
  apiKey : String := ""
  model : Option String := none
deriving DecidableEq

/-- `ResultCache` (src/App.tsx line 73): a JS object keyed by
`"provider:model:mode"` strings, modelled as a function to an optional
result. -/
abbrev ResultCache := String → Option ModeResult

/-- The empty result cache (`{}`). -/
def emptyCache : ResultCache := fun _ => none

/-- `cacheKey(config, mode)` (src/App.tsx lines 75-77):
the template literal `provider:model ?? '':mode`. -/
def cacheKey (config : ProviderConfig) (mode : String) : String :=
  config.provider ++ ":" ++ config.model.getD "" ++ ":" ++ mode

/-- `getCached(mode)` (src/App.tsx lines 214-215): `null` without a provider
config, else the entry under the computed key (or `null`). -/
def getCached (providerConfig : Option ProviderConfig) (cache : ResultCache)
    (mode : String) : Option ModeResult :=
  match providerConfig with
  | some cfg => cache (cacheKey cfg mode)
  | none => none

/-- `setCached(mode, result)` (src/App.tsx lines 217-220): no-op without a
provider config, else the spread-update `{...prev, [key]: result}`. -/
def setCached (providerConfig : Option ProviderConfig) (cache : ResultCache)
    (mode : String) (result : ModeResult) : ResultCache :=
  match providerConfig with
  | some cfg => fun k => if k = cacheKey cfg mode then some result else cache k
  | none => cache

/-- The two-character string of a backslash followed by an apostrophe — the
JS literal pattern passed to `replaceAll` in `runMode`. -/
def backslashApos : String := ⟨[Char.ofNat 92, Char.ofNat 39]⟩

/-- The single-apostrophe replacement string. -/
def aposOnly : String := ⟨[Char.ofNat 39]⟩

/-- The text cleanup of the timecode callbacks in `runMode` (src/App.tsx):
`t.text?.replaceAll("\\'", "'")` applied through optional chaining. -/
def cleanTimecode (t : Timecode) : Timecode :=
  { t with text := t.text.map (fun s => s.replace backslashApos aposOnly) }

/-- The argument payloads accepted by the five `fnMap` callbacks of
`runMode` (src/App.tsx lines 298-314). -/
inductive FnArgs where
  | timecodesArgs (timecodes : List Timecode) : FnArgs
  | diagramArgs (mermaid : String) (plantuml : String) (summary : Option String) : FnArgs
  | jsonlArgs (contexts : List String) (metadata : Option String) : FnArgs
deriving DecidableEq

/-- The `fnMap` of `runMode` (src/App.tsx lines 298-314): maps a function-call
name and arguments to the `ModeResult` it captures; `none` for a name absent
from the map (`fnMap[call.name]` undefined — no capture happens). -/
def applyFnMap (name : String) (args : FnArgs) : Option ModeResult :=
  match name, args with
  | "set_timecodes", .timecodesArgs tcs =>
      some (ModeResult.timecodes (tcs.map cleanTimecode))
  | "set_timecodes_with_objects", .timecodesArgs tcs =>
      some (ModeResult.timecodes (tcs.map cleanTimecode))
  | "set_timecodes_with_numeric_values", .timecodesArgs tcs =>
      some (ModeResult.timecodes tcs)
  | "set_workflow_diagrams", .diagramArgs m p s =>
      some (ModeResult.diagram m p s)
  | "set_jsonl_context", .jsonlArgs c m =>
      some (ModeResult.jsonl c m)
  | _, _ => none

/-- The outcome of the `generateContent` provider call awaited by `runMode`:
either the call threw (transport failure, non-2xx response, SDK throw) or it
returned a normalized `{functionCalls}` value. -/
inductive ProviderResponse where
  | fail (msg : String) : ProviderResponse
  | ok (functionCalls : List (String × FnArgs)) : ProviderResponse

/-- The `captured` value at the end of the `try` block of `runMode`
(src/App.tsx lines 316-320): the first function call, if any, dispatched
through `fnMap` when its name is known. -/
def capturedResult (calls : List (String × FnArgs)) : Option ModeResult :=
  match calls.head? with
  | some (n, a) => applyFnMap n a
  | none => none

/-- The effect of one `runMode` execution (src/App.tsx lines 265-332) on the
result cache, for a run that reaches the provider call (a cached, non-forced
run returns early and performs neither a call nor a write).  On a throw the
`catch` block only alerts — the cache is not touched; on success,
`if (captured) setCached(mode, captured)` writes the single captured result;
with no function call (or an unknown name) nothing is written. -/
def runModeCache (cache : ResultCache) (providerConfig : Option ProviderConfig)
    (mode : String) (resp : ProviderResponse) : ResultCache :=
  match providerConfig with
  | none => cache
  | some _ =>
    match resp with
    | .fail _ => cache
    | .ok calls =>
      match capturedResult calls with
      | some r => setCached providerConfig cache mode r
      | none => cache

-- ────────────────────────────────────────────────────────────────────────────
-- App-level state transitions (uploadVideo, handleProviderChange,
-- src/App.tsx lines 233-261 and 341-356)
-- ────────────────────────────────────────────────────────────────────────────

/-- A dropped video `File`: the fields the upload path reads. -/
structure VideoFile where
  name : String
  mimeType : String
deriving DecidableEq

/-- The slice of the App component state the cache claims are about. -/
structure AppState where
  providerConfig : Option ProviderConfig
  vidUrl : Option String
  file : Option UploadedFile
  resultCache : ResultCache

/-- `uploadVideo(e)` (src/App.tsx lines 233-261), over one drop event:
returns unchanged without a provider config or a dropped file; otherwise
clears the whole result cache, stores the object URL, and sets the file from
the Gemini upload outcome (modelled by `uploadResult`, the settled value of
`uploadFileToGemini`) or, for the other providers, to the local
`{uri: objectUrl, mimeType, frames: []}` value.  The loading/error flags are
presentation state and are not modelled. -/
def uploadVideo (s : AppState) (dropped : Option VideoFile) (objectUrl : String)
    (uploadResult : Except String UploadedFile) : AppState :=
  match s.providerConfig with
  | none => s
  | some cfg =>
    match dropped with
    | none => s
    | some vf =>
      let s1 := { s with resultCache := emptyCache, vidUrl := some objectUrl }
      if cfg.provider = "gemini" then
        match uploadResult with
        | .ok res => { s1 with file := some res }
        | .error _ => s1
      else
        { s1 with file := some { uri := objectUrl, mimeType := vf.mimeType, frames := some [] } }

/-- `handleProviderChange(config)` (src/App.tsx lines 341-356): adopt the new
config; when a video is loaded (`file && vidUrl`), switching to Gemini resets
the file, the URL and the whole result cache so the upload is triggered
again, while switching to a non-Gemini provider keeps the local frames. -/
def handleProviderChange (s : AppState) (config : ProviderConfig) : AppState :=
  let s1 := { s with providerConfig := some config }
  match s.file, s.vidUrl with
  | some f, some u =>
    if config.provider = "gemini" then
      { s1 with file := none, vidUrl := none, resultCache := emptyCache }
    else
      { s1 with file := some { uri := u, mimeType := f.mimeType, frames := f.frames } }
  | _, _ => s1

/-- A string free of the colon used as the cache-key separator. -/
abbrev colonFree (s : String) : Prop := ':' ∉ s.data

-- ────────────────────────────────────────────────────────────────────────────
-- Helper lemmas: ASCII lower-casing
-- ────────────────────────────────────────────────────────────────────────────

/-- `Char.ofNat` of a valid code point round-trips through `toNat`. -/
theorem toNat_ofNat_of_valid (n : Nat) (h : n.isValidChar) :
    (Char.ofNat n).toNat = n := by
  rw [Char.ofNat, dif_pos h]
  simp [Char.ofNatAux, Char.toNat]
  rfl

/-- ASCII lower-casing of a character is idempotent. -/
theorem toLower_char_idem (c : Char) : c.toLower.toLower = c.toLower := by
  by_cases h : c.toNat ≥ 65 ∧ c.toNat ≤ 90
  · have hval : (c.toNat + 32).isValidChar := by
      left
      omega
    have h1 : c.toLower = Char.ofNat (c.toNat + 32) := by
      rw [Char.toLower, if_pos h]
    have h2 : (Char.ofNat (c.toNat + 32)).toNat = c.toNat + 32 :=
      toNat_ofNat_of_valid _ hval
    rw [h1, Char.toLower, if_neg]
    rw [h2]
    omega
  · have h1 : c.toLower = c := by
      rw [Char.toLower, if_neg h]
    rw [h1, h1]

/-- Lower-casing a string is idempotent. -/
theorem toLowerCase_idem (s : String) : toLowerCase (toLowerCase s) = toLowerCase s := by
  cases s with
  | mk l =>
    show String.mk ((l.map Char.toLower).map Char.toLower) = String.mk (l.map Char.toLower)
    rw [List.map_map]
    congr 1
    apply List.map_congr_left
    intro c _
    exact toLower_char_idem c

/-- Lower-casing never turns a non-empty string into the empty string. -/
theorem toLowerCase_ne_empty (s : String) (h : s ≠ "") : toLowerCase s ≠ "" := by
  intro hc
  apply h
  cases s with
  | mk l =>
    have hdata : l.map Char.toLower = [] := congrArg String.data hc
    have : l = [] := List.map_eq_nil_iff.mp hdata
    rw [this]

-- ────────────────────────────────────────────────────────────────────────────
-- Helper lemmas: schema normalizer
-- ────────────────────────────────────────────────────────────────────────────

/-- Unfolding equation for `SchemaNode.convert` with the nested property
traversal expressed as a plain `List.map`. -/
theorem convert_mk (ty desc : Option String) (req : Option (List String))
    (props : Option (List (String × SchemaNode))) (items : Option SchemaNode) :
    SchemaNode.convert (.mk ty desc req props items) =
    SchemaNode.mk
      (ty.bind (fun t => if t = "" then none else some (toLowerCase t)))
      (desc.bind (fun d => if d = "" then none else some d))
      req
      (props.map (fun entries => entries.map (fun kv => (kv.1, SchemaNode.convert kv.2))))
      (items.map (fun it => SchemaNode.convert it)) := by
  rw [SchemaNode.convert.eq_def]
  simp only [SchemaNode.mk.injEq]
  refine ⟨?_, ?_, trivial, ?_, ?_⟩
  · cases ty <;> rfl
  · cases desc <;> rfl
  · cases props with
    | none => rfl
    | some entries =>
      exact congrArg some
        (List.attach_map_val entries (fun x => (x.1, SchemaNode.convert x.2)))
  · cases items <;> rfl

/-- The recursive normalizer is idempotent on every node. -/
theorem convert_idem (s : SchemaNode) : s.convert.convert = s.convert := by
  cases s with
  | mk ty desc req props items =>
    rw [convert_mk, convert_mk]
    simp only [SchemaNode.mk.injEq]
    refine ⟨?_, ?_, trivial, ?_, ?_⟩
    · cases ty with
      | none => rfl
      | some t =>
        by_cases h : t = ""
        · subst h
          simp
        · show ((if t = "" then none else some (toLowerCase t)).bind
              (fun x => if x = "" then none else some (toLowerCase x))) =
            (if t = "" then none else some (toLowerCase t))
          rw [if_neg h]
          show (if toLowerCase t = "" then none else some (toLowerCase (toLowerCase t))) =
            some (toLowerCase t)
          rw [if_neg (toLowerCase_ne_empty t h), toLowerCase_idem]
    · cases desc with
      | none => rfl
      | some d =>
        by_cases h : d = ""
        · subst h
          simp
        · show ((if d = "" then none else some d).bind
              (fun x => if x = "" then none else some x)) =
            (if d = "" then none else some d)
          rw [if_neg h]
          show (if d = "" then none else some d) = some d
          rw [if_neg h]
    · cases props with
      | none => rfl
      | some entries =>
        show some ((entries.map (fun kv => (kv.1, SchemaNode.convert kv.2))).map
            (fun kv => (kv.1, SchemaNode.convert kv.2))) =
          some (entries.map (fun kv => (kv.1, SchemaNode.convert kv.2)))
        rw [List.map_map]
        congr 1
        apply List.map_congr_left
        intro kv hkv
        show (kv.1, kv.2.convert.convert) = (kv.1, kv.2.convert)
        rw [convert_idem kv.2]
    · cases items with
      | none => rfl
      | some it =>
        show some it.convert.convert = some it.convert
        rw [convert_idem it]
termination_by sizeOf s
decreasing_by
  · have hm := List.sizeOf_lt_of_mem hkv
    cases kv with
    | mk a b => simp_all; omega
  · simp; omega

-- ────────────────────────────────────────────────────────────────────────────
-- C1: schema normalizer totality and field preservation
-- ────────────────────────────────────────────────────────────────────────────

/-- C1 (amended): `convertSchemaToOpenAI` is total — it returns the empty
object for a null/undefined input — and at every recursion level its output
preserves the lower-cased `type` when present and non-empty, the
`description` when present and non-empty, the `required` array as-is, the
recursively normalized `properties` map with the same key list, and the
recursively normalized `items` node.  (The original claim, without the
non-emptiness qualifications on `type`/`description`, is refuted by
`claim_C1_counterexample`: a present empty string is falsy in JS and is
dropped.) -/
theorem claim_C1_schema_normalizer :
    (convertSchemaToOpenAI none = SchemaNode.mk none none none none none) ∧
    ∀ s : SchemaNode,
      (∀ t, s.tyOf = some t → t ≠ "" →
        (convertSchemaToOpenAI (some s)).tyOf = some (toLowerCase t)) ∧
      (∀ d, s.descOf = some d → d ≠ "" →
        (convertSchemaToOpenAI (some s)).descOf = some d) ∧
      ((convertSchemaToOpenAI (some s)).reqOf = s.reqOf) ∧
      (∀ entries, s.propsOf = some entries →
        (convertSchemaToOpenAI (some s)).propsOf =
          some (entries.map (fun kv => (kv.1, SchemaNode.convert kv.2))) ∧
        (entries.map (fun kv => (kv.1, SchemaNode.convert kv.2))).map Prod.fst =
          entries.map Prod.fst) ∧
      (∀ it, s.itemsOf = some it →
        (convertSchemaToOpenAI (some s)).itemsOf = some (SchemaNode.convert it)) := by
  refine ⟨rfl, ?_⟩
  intro s
  cases s with
  | mk ty desc req props items =>
    show (∀ t, ty = some t → _) ∧ (∀ d, desc = some d → _) ∧ _ ∧
      (∀ entries, props = some entries → _) ∧ (∀ it, items = some it → _)
    refine ⟨?_, ?_, ?_, ?_, ?_⟩
    · intro t ht hne
      subst ht
      show (SchemaNode.convert _).tyOf = some (toLowerCase t)
      rw [convert_mk]
      show (if t = "" then none else some (toLowerCase t)) = some (toLowerCase t)
      rw [if_neg hne]
    · intro d hd hne
      subst hd
      show (SchemaNode.convert _).descOf = some d
      rw [convert_mk]
      show (if d = "" then none else some d) = some d
      rw [if_neg hne]
    · show (SchemaNode.convert _).reqOf = req
      rw [convert_mk]
      rfl
    · intro entries he
      subst he
      constructor
      · show (SchemaNode.convert _).propsOf = _
        rw [convert_mk]
        rfl
      · rw [List.map_map]
        apply List.map_congr_left
        intro kv _
        rfl
    · intro it hi
      subst hi
      show (SchemaNode.convert _).itemsOf = some it.convert
      rw [convert_mk]
      rfl

/-- C1, claim as frozen, refuted at a concrete input: the node
`{type: "OBJECT", description: ""}` has its `description` present, yet the
normalizer drops it (`if (schema.description)` is false on the empty
string), so the output does not preserve the description. -/
theorem claim_C1_counterexample :
    (SchemaNode.mk (some "OBJECT") (some "") none none none).descOf = some "" ∧
    (convertSchemaToOpenAI
      (some (SchemaNode.mk (some "OBJECT") (some "") none none none))).descOf = none := by
  refine ⟨rfl, ?_⟩
  show (SchemaNode.convert _).descOf = none
  rw [convert_mk]
  rfl

/-- Witness for `claim_C1_schema_normalizer` at a concrete two-level node. -/
theorem claim_C1_witness :
    (convertSchemaToOpenAI (some (SchemaNode.mk (some "OBJECT") (some "top")
        (some ["a"]) (some [("a", SchemaNode.mk (some "STRING") none none none none)])
        (some (SchemaNode.mk (some "ARRAY") none none none none))))).tyOf =
      some (toLowerCase "OBJECT") ∧
    (convertSchemaToOpenAI (some (SchemaNode.mk (some "OBJECT") (some "top")
        (some ["a"]) (some [("a", SchemaNode.mk (some "STRING") none none none none)])
        (some (SchemaNode.mk (some "ARRAY") none none none none))))).descOf =
      some "top" ∧
    (convertSchemaToOpenAI (some (SchemaNode.mk (some "OBJECT") (some "top")
        (some ["a"]) (some [("a", SchemaNode.mk (some "STRING") none none none none)])
        (some (SchemaNode.mk (some "ARRAY") none none none none))))).reqOf =
      some ["a"] ∧
    ([("a", SchemaNode.mk (some "STRING") none none none none)].map
        (fun kv => (kv.1, SchemaNode.convert kv.2))).map Prod.fst = ["a"] :=
  ⟨(claim_C1_schema_normalizer.2 _).1 "OBJECT" rfl (by decide),
   (claim_C1_schema_normalizer.2 _).2.1 "top" rfl (by decide),
   (claim_C1_schema_normalizer.2 _).2.2.1,
   ((claim_C1_schema_normalizer.2
      (SchemaNode.mk (some "OBJECT") (some "top") (some ["a"])
        (some [("a", SchemaNode.mk (some "STRING") none none none none)])
        (some (SchemaNode.mk (some "ARRAY") none none none none)))).2.2.2.1
      [("a", SchemaNode.mk (some "STRING") none none none none)] rfl).2⟩

-- ────────────────────────────────────────────────────────────────────────────
-- C10: the schema normalizer is idempotent
-- ────────────────────────────────────────────────────────────────────────────

/-- C10: for every schema node (including the null/undefined input),
normalizing the normalizer's own output yields the same result:
`normalize (normalize x) = normalize x`. -/
theorem claim_C10_idempotent (x : Option SchemaNode) :
    convertSchemaToOpenAI (some (convertSchemaToOpenAI x)) = convertSchemaToOpenAI x := by
  cases x with
  | none =>
      show SchemaNode.convert (SchemaNode.mk none none none none none) =
        SchemaNode.mk none none none none none
      rw [convert_mk]
      rfl
  | some s =>
      show s.convert.convert = s.convert
      exact convert_idem s

-- ────────────────────────────────────────────────────────────────────────────
-- Helper lemmas: stride sub-sampling
-- ────────────────────────────────────────────────────────────────────────────

/-- `filter` on enumerated pairs by a position predicate, projected back to
the elements, is `maskFilter`. -/
theorem enumFrom_filter_snd {α : Type} (p : Nat → Bool) :
    ∀ (l : List α) (m : Nat),
      ((l.enumFrom m).filter (fun x => p x.1)).map Prod.snd = maskFilter p l m
  | [], _ => rfl
  | a :: t, m => by
      show ((((m, a) :: t.enumFrom (m + 1)).filter (fun x => p x.1)).map Prod.snd) =
        maskFilter p (a :: t) m
      rw [List.filter_cons]
      by_cases h : p m
      · simp only [h, if_pos, List.map_cons, maskFilter, if_pos h]
        rw [enumFrom_filter_snd p t (m + 1)]
      · simp only [h, Bool.false_eq_true, if_neg, maskFilter,
          if_neg h, Bool.false_eq_true, not_false_eq_true]
        rw [enumFrom_filter_snd p t (m + 1)]

/-- Adding a multiple of the modulus on the left preserves residues. -/
theorem add_mod_of_left_zero (m c s : Nat) (hm : m % s = 0) :
    (m + c) % s = c % s := by
  obtain ⟨k, hk⟩ := Nat.dvd_of_mod_eq_zero hm
  subst hk
  exact Nat.mul_add_mod s k c

/-- Keeping the positions divisible by `s`, with the position counter at `m`
and `c` the distance to the next multiple of `s`, is a stride-walk. -/
theorem maskFilter_mod_eq_strideTake {α : Type} (s : Nat) (hs : 0 < s) :
    ∀ (l : List α) (m c : Nat), c < s → (m + c) % s = 0 →
      maskFilter (fun i => i % s == 0) l m = strideTake s l c
  | [], _, _, _, _ => rfl
  | a :: t, m, c, hc, hmc => by
      by_cases h : c = 0
      · subst h
        have hm : m % s = 0 := by simpa using hmc
        have hnext : (m + 1 + (s - 1)) % s = 0 := by
          have he : m + 1 + (s - 1) = m + s := by omega
          rw [he, Nat.add_mod_right]
          exact hm
        have h1 : maskFilter (fun i => i % s == 0) (a :: t) m =
            a :: maskFilter (fun i => i % s == 0) t (m + 1) := by
          simp [maskFilter, hm]
        have h2 : strideTake s (a :: t) 0 = a :: strideTake s t (s - 1) := by
          simp [strideTake]
        rw [h1, h2, maskFilter_mod_eq_strideTake s hs t (m + 1) (s - 1) (by omega) hnext]
      · have hm : m % s ≠ 0 := by
          intro hm0
          have hcc := add_mod_of_left_zero m c s hm0
          rw [hmc, Nat.mod_eq_of_lt hc] at hcc
          omega
        have hnext : (m + 1 + (c - 1)) % s = 0 := by
          have he : m + 1 + (c - 1) = m + c := by omega
          rw [he]
          exact hmc
        have h1 : maskFilter (fun i => i % s == 0) (a :: t) m =
            maskFilter (fun i => i % s == 0) t (m + 1) := by
          simp [maskFilter, hm]
        have h2 : strideTake s (a :: t) c = strideTake s t (c - 1) := by
          simp [strideTake, h]
        rw [h1, h2]
        exact maskFilter_mod_eq_strideTake s hs t (m + 1) (c - 1) (by omega) hnext

/-- Position `j` of a stride-walk is position `c + j * s` of the original
list. -/
theorem strideTake_getElem (s : Nat) (hs : 0 < s) {α : Type} :
    ∀ (l : List α) (c j : Nat), c < s →
      (strideTake s l c)[j]? = l[c + j * s]?
  | [], c, j, _ => by simp [strideTake]
  | a :: t, c, j, hc => by
      by_cases h : c = 0
      · subst h
        have h2 : strideTake s (a :: t) 0 = a :: strideTake s t (s - 1) := by
          simp [strideTake]
        cases j with
        | zero => simp [h2]
        | succ j =>
          have hrec := strideTake_getElem s hs t (s - 1) j (by omega)
          have hmul : (j + 1) * s = j * s + s := by ring
          have hidx : 0 + (j + 1) * s = (s - 1 + j * s) + 1 := by omega
          rw [h2, List.getElem?_cons_succ, hrec, hidx, List.getElem?_cons_succ]
      · have h2 : strideTake s (a :: t) c = strideTake s t (c - 1) := by
          simp [strideTake, h]
        have hrec := strideTake_getElem s hs t (c - 1) j (by omega)
        have hidx : c + j * s = (c - 1 + j * s) + 1 := by omega
        rw [h2, hrec, hidx, List.getElem?_cons_succ]

/-- Length of a stride-walk: the number of kept positions. -/
theorem strideTake_length (s : Nat) (hs : 0 < s) {α : Type} :
    ∀ (l : List α) (c : Nat), c < s →
      (strideTake s l c).length = (l.length + (s - 1) - c) / s
  | [], c, hc => by
      simp only [strideTake, List.length_nil]
      rw [Nat.div_eq_of_lt (by omega)]
  | a :: t, c, hc => by
      by_cases h : c = 0
      · subst h
        have h2 : strideTake s (a :: t) 0 = a :: strideTake s t (s - 1) := by
          simp [strideTake]
        rw [h2]
        simp only [List.length_cons]
        rw [strideTake_length s hs t (s - 1) (by omega)]
        have h1 : t.length + (s - 1) - (s - 1) = t.length := by omega
        have h3 : t.length + 1 + (s - 1) - 0 = t.length + s := by omega
        rw [h1, h3, Nat.add_div_right _ hs]
      · have h2 : strideTake s (a :: t) c = strideTake s t (c - 1) := by
          simp [strideTake, h]
        rw [h2]
        simp only [List.length_cons]
        rw [strideTake_length s hs t (c - 1) (by omega)]
        congr 1
        omega

/-- The inline sub-sampling of the adapters, re-expressed as a stride-walk
truncated to 20 elements. -/
theorem sampledFrames_eq {α : Type} (frames : List α) :
    sampledFrames frames =
      (strideTake (max 1 (frames.length / 20)) frames 0).take 20 := by
  have hs : 0 < max 1 (frames.length / 20) :=
    Nat.lt_of_lt_of_le Nat.zero_lt_one (le_max_left 1 _)
  show ((((frames.enumFrom 0).filter
      (fun x => (fun i => i % (max 1 (frames.length / 20)) == 0) x.1)).map
        Prod.snd).take 20) = _
  rw [enumFrom_filter_snd (fun i => i % (max 1 (frames.length / 20)) == 0) frames 0]
  rw [maskFilter_mod_eq_strideTake _ hs frames 0 0 hs (by simp)]

-- ────────────────────────────────────────────────────────────────────────────
-- C2: the stride sub-sampling property
-- ────────────────────────────────────────────────────────────────────────────

/-- C2 (amended): for target N = 20 and stride = max(1, floor(L/20)), the
sub-sampling returns at most 20 elements, exactly 20 when L ≥ 20, and its
j-th element, for j < 20, is the frame at original index j·stride — that is,
original index i is kept iff `i % stride == 0` AND i is among the first 20
such indices.  (The original claim, with the inclusion criterion
`i % stride == 0` alone, ignores the final `slice(0, 20)` truncation and is
refuted by `claim_C2_counterexample`.) -/
theorem claim_C2_stride_subsample {α : Type} (frames : List α) :
    (sampledFrames frames).length ≤ 20 ∧
    (20 ≤ frames.length → (sampledFrames frames).length = 20) ∧
    ∀ j, (sampledFrames frames)[j]? =
      if j < 20 then frames[j * max 1 (frames.length / 20)]? else none := by
  have hs : 0 < max 1 (frames.length / 20) :=
    Nat.lt_of_lt_of_le Nat.zero_lt_one (le_max_left 1 _)
  rw [sampledFrames_eq]
  refine ⟨by simp, ?_, ?_⟩
  · intro hL
    rw [List.length_take, strideTake_length _ hs frames 0 hs]
    have hdm := Nat.div_mul_le_self frames.length 20
    have h20 : 20 ≤ (frames.length + (max 1 (frames.length / 20) - 1) - 0) /
        max 1 (frames.length / 20) := by
      rw [Nat.le_div_iff_mul_le hs]
      omega
    omega
  · intro j
    by_cases hj : j < 20
    · rw [List.getElem?_take_of_lt hj, strideTake_getElem _ hs frames 0 j hs,
        Nat.zero_add, if_pos hj]
    · rw [if_neg hj]
      apply List.getElem?_eq_none
      have : (List.take 20 (strideTake (max 1 (frames.length / 20)) frames 0)).length ≤ 20 := by
        simp
      omega

/-- C2, claim as frozen, refuted at a concrete input: 21 frames give stride
max(1, floor(21/20)) = 1, so index 20 satisfies `i % stride == 0`, yet the
`slice(0, 20)` truncation drops it — inclusion is not equivalent to
`i % stride == 0` when L ≥ N. -/
theorem claim_C2_counterexample :
    20 ≤ (List.range 21).length ∧
    (List.range 21)[20]? = some 20 ∧
    20 % (max 1 ((List.range 21).length / 20)) = 0 ∧
    20 ∉ sampledFrames (List.range 21) := by decide

/-- Witness for `claim_C2_stride_subsample` on a concrete 45-frame input. -/
theorem claim_C2_witness :
    20 ≤ (List.range 45).length ∧
    (sampledFrames (List.range 45)).length = 20 ∧
    (sampledFrames (List.range 45))[3]? =
      if 3 < 20 then (List.range 45)[3 * max 1 ((List.range 45).length / 20)]? else none :=
  ⟨by decide,
   (claim_C2_stride_subsample (List.range 45)).2.1 (by decide),
   (claim_C2_stride_subsample (List.range 45)).2.2 3⟩

-- ────────────────────────────────────────────────────────────────────────────
-- C3: Anthropic content for 45 frames
-- ────────────────────────────────────────────────────────────────────────────

/-- C3: with 45 extracted frames and the fixed cap of 20, the Anthropic
user-message content holds exactly 20 image blocks, all of which precede the
single trailing text block. -/
theorem claim_C3_anthropic_blocks (frames : List String) (txt : String)
    (h45 : frames.length = 45) :
    ((anthropicUserContent (some frames) txt).countP AnthropicBlock.isImage = 20) ∧
    ∃ imgs, anthropicUserContent (some frames) txt = imgs ++ [AnthropicBlock.text txt] ∧
      imgs.length = 20 ∧ ∀ b ∈ imgs, b.isImage = true := by
  have hs : 0 < max 1 (frames.length / 20) :=
    Nat.lt_of_lt_of_le Nat.zero_lt_one (le_max_left 1 _)
  have hlen : (sampledFrames frames).length = 20 := by
    rw [sampledFrames_eq, List.length_take, strideTake_length _ hs frames 0 hs, h45]
    decide
  have hcontent : anthropicUserContent (some frames) txt =
      (sampledFrames frames).map AnthropicBlock.image ++ [AnthropicBlock.text txt] := by
    show (if 0 < frames.length then (sampledFrames frames).map AnthropicBlock.image
        else []) ++ [AnthropicBlock.text txt] = _
    rw [if_pos (by omega)]
  refine ⟨?_, (sampledFrames frames).map AnthropicBlock.image, hcontent, by simp [hlen], ?_⟩
  · rw [hcontent, List.countP_append, List.countP_map]
    have h1 : (sampledFrames frames).countP (AnthropicBlock.isImage ∘ AnthropicBlock.image) =
        (sampledFrames frames).length := by
      apply List.countP_eq_length.mpr
      intro a _
      rfl
    have h2 : List.countP AnthropicBlock.isImage [AnthropicBlock.text txt] = 0 := by
      simp [List.countP_cons, AnthropicBlock.isImage]
    rw [h1, h2, hlen]
  · intro b hb
    rcases List.mem_map.mp hb with ⟨a, _, rfl⟩
    rfl

/-- Witness for `claim_C3_anthropic_blocks` on a concrete 45-frame input. -/
theorem claim_C3_witness :
    (List.replicate 45 "f").length = 45 ∧
    ((anthropicUserContent (some (List.replicate 45 "f")) "query").countP
      AnthropicBlock.isImage = 20) ∧
    ∃ imgs, anthropicUserContent (some (List.replicate 45 "f")) "query" =
        imgs ++ [AnthropicBlock.text "query"] ∧
      imgs.length = 20 ∧ ∀ b ∈ imgs, b.isImage = true :=
  ⟨by simp,
   (claim_C3_anthropic_blocks (List.replicate 45 "f") "query" (by simp)).1,
   (claim_C3_anthropic_blocks (List.replicate 45 "f") "query" (by simp)).2⟩

-- ────────────────────────────────────────────────────────────────────────────
-- Helper lemmas: Gemini poll loop
-- ────────────────────────────────────────────────────────────────────────────

/-- The poll loop stops at the first handle whose state is not `PROCESSING`. -/
theorem pollLoop_find :
    ∀ (handles : List GeminiFileHandle) (n : Nat) (h : GeminiFileHandle) (k : Nat),
      pollLoop handles n = some (h, k) →
      handles.find? (fun x => x.state != "PROCESSING") = some h
  | [], _, _, _, hstop => by simp [pollLoop] at hstop
  | hd :: rest, n, h, k, hstop => by
      by_cases hh : hd.state = "PROCESSING"
      · have hstep : pollLoop (hd :: rest) n = pollLoop rest (n + 1) := by
          simp [pollLoop, hh]
        rw [hstep] at hstop
        rw [List.find?_cons_of_neg _ (by simp [hh])]
        exact pollLoop_find rest (n + 1) h k hstop
      · have hstep : pollLoop (hd :: rest) n = some (hd, n) := by
          simp [pollLoop, hh]
        rw [hstep] at hstop
        injection hstop with hpair
        injection hpair with h1 h2
        rw [List.find?_cons_of_pos _ (by simp [hh]), h1]

/-- Skipping a prefix of `PROCESSING` handles: the loop performs one
sleep-and-poll iteration per prefix element and stops at the first handle
that is out of `PROCESSING`. -/
theorem pollLoop_skip (h : GeminiFileHandle) (rest : List GeminiFileHandle)
    (hh : h.state ≠ "PROCESSING") :
    ∀ (pre : List GeminiFileHandle) (n : Nat), (∀ x ∈ pre, x.state = "PROCESSING") →
      pollLoop (pre ++ h :: rest) n = some (h, n + pre.length)
  | [], n, _ => by
      show pollLoop (h :: rest) n = _
      simp [pollLoop, hh]
  | hd :: tl, n, hpre => by
      have hhd : hd.state = "PROCESSING" := hpre hd (by simp)
      show pollLoop (hd :: (tl ++ h :: rest)) n = _
      have hstep : pollLoop (hd :: (tl ++ h :: rest)) n =
          pollLoop (tl ++ h :: rest) (n + 1) := by
        simp [pollLoop, hhd]
      rw [hstep, pollLoop_skip h rest hh tl (n + 1) (fun x hx => hpre x (by simp [hx]))]
      simp only [List.length_cons]
      have heq : n + 1 + tl.length = n + (tl.length + 1) := by omega
      rw [heq]

-- ────────────────────────────────────────────────────────────────────────────
-- C4: upload failure and success outcomes
-- ────────────────────────────────────────────────────────────────────────────

/-- C4: for every observed state sequence, the poll stops at the first
non-`PROCESSING` handle; if that terminal state is `FAILED` the function
fails with the processing error and returns no file, and otherwise it
resolves an `UploadedFile` carrying the `uri` and `mimeType` of the final
resolved handle. -/
theorem claim_C4_upload_outcome (handles : List GeminiFileHandle)
    (h : GeminiFileHandle) (n : Nat) (hstop : pollLoop handles 0 = some (h, n)) :
    handles.find? (fun x => x.state != "PROCESSING") = some h ∧
    (h.state = "FAILED" →
      uploadFileToGemini handles = some (Except.error "File processing failed.")) ∧
    (h.state ≠ "FAILED" →
      uploadFileToGemini handles =
        some (Except.ok { uri := h.uri, mimeType := h.mimeType })) := by
  refine ⟨pollLoop_find handles 0 h n hstop, ?_, ?_⟩
  · intro hf
    unfold uploadFileToGemini
    rw [hstop]
    simp [hf]
  · intro hf
    unfold uploadFileToGemini
    rw [hstop]
    simp [hf]

/-- Witness for `claim_C4_upload_outcome`: a run whose second observation is
`FAILED` throws the processing error, and a run resolving `ACTIVE` returns
the final handle's uri and mimeType. -/
theorem claim_C4_witness :
    uploadFileToGemini [⟨"PROCESSING", "", ""⟩, ⟨"FAILED", "u", "m"⟩] =
      some (Except.error "File processing failed.") ∧
    uploadFileToGemini [⟨"ACTIVE", "u2", "m2"⟩] =
      some (Except.ok { uri := "u2", mimeType := "m2" }) :=
  ⟨(claim_C4_upload_outcome [⟨"PROCESSING", "", ""⟩, ⟨"FAILED", "u", "m"⟩]
      ⟨"FAILED", "u", "m"⟩ 1 (by decide)).2.1 rfl,
   (claim_C4_upload_outcome [⟨"ACTIVE", "u2", "m2"⟩]
      ⟨"ACTIVE", "u2", "m2"⟩ 0 (by decide)).2.2 (by decide)⟩

-- ────────────────────────────────────────────────────────────────────────────
-- C5: poll loop iteration count
-- ────────────────────────────────────────────────────────────────────────────

/-- C5: the loop iterates (sleeping the fixed 5-second interval each time)
exactly once per leading `PROCESSING` observation and stops at the first
non-`PROCESSING` one; the accumulated sleeping time is the iteration count
times 5000 ms, and a non-`FAILED` terminal state resolves `{uri, mimeType}`
from the final handle.  In particular PROCESSING → PROCESSING → ACTIVE polls
exactly twice after the initial read (see `claim_C5_witness`).  Termination
is conditional on the sequence leaving `PROCESSING`: the hypotheses exhibit
such a sequence, and no maximum-attempts bound exists in the code. -/
theorem claim_C5_poll_iterations (pre : List GeminiFileHandle)
    (h : GeminiFileHandle) (rest : List GeminiFileHandle) (n : Nat)
    (hpre : ∀ x ∈ pre, x.state = "PROCESSING") (hh : h.state ≠ "PROCESSING") :
    pollLoop (pre ++ h :: rest) n = some (h, n + pre.length) ∧
    pollDelay (pre ++ h :: rest) = some (pre.length * pollIntervalMs) ∧
    (h.state ≠ "FAILED" →
      uploadFileToGemini (pre ++ h :: rest) =
        some (Except.ok { uri := h.uri, mimeType := h.mimeType })) := by
  refine ⟨pollLoop_skip h rest hh pre n hpre, ?_, ?_⟩
  · show (pollLoop (pre ++ h :: rest) 0).map (fun p => p.2 * pollIntervalMs) = _
    rw [pollLoop_skip h rest hh pre 0 hpre]
    simp
  · intro hf
    unfold uploadFileToGemini
    rw [pollLoop_skip h rest hh pre 0 hpre]
    simp [hf]

/-- Witness for `claim_C5_poll_iterations`: the scenario
PROCESSING → PROCESSING → ACTIVE performs exactly two sleep-and-poll
iterations (10 seconds of waiting) and resolves the final uri/mimeType. -/
theorem claim_C5_witness :
    pollLoop [⟨"PROCESSING", "", ""⟩, ⟨"PROCESSING", "", ""⟩,
      ⟨"ACTIVE", "uri-1", "video/mp4"⟩] 0 = some (⟨"ACTIVE", "uri-1", "video/mp4"⟩, 2) ∧
    pollDelay [⟨"PROCESSING", "", ""⟩, ⟨"PROCESSING", "", ""⟩,
      ⟨"ACTIVE", "uri-1", "video/mp4"⟩] = some 10000 ∧
    uploadFileToGemini [⟨"PROCESSING", "", ""⟩, ⟨"PROCESSING", "", ""⟩,
      ⟨"ACTIVE", "uri-1", "video/mp4"⟩] =
      some (Except.ok { uri := "uri-1", mimeType := "video/mp4" }) :=
  ⟨(claim_C5_poll_iterations [⟨"PROCESSING", "", ""⟩, ⟨"PROCESSING", "", ""⟩]
      ⟨"ACTIVE", "uri-1", "video/mp4"⟩ [] 0 (by decide) (by decide)).1,
   (claim_C5_poll_iterations [⟨"PROCESSING", "", ""⟩, ⟨"PROCESSING", "", ""⟩]
      ⟨"ACTIVE", "uri-1", "video/mp4"⟩ [] 0 (by decide) (by decide)).2.1,
   (claim_C5_poll_iterations [⟨"PROCESSING", "", ""⟩, ⟨"PROCESSING", "", ""⟩]
      ⟨"ACTIVE", "uri-1", "video/mp4"⟩ [] 0 (by decide) (by decide)).2.2 (by decide)⟩

-- ────────────────────────────────────────────────────────────────────────────
-- Helper lemma: frame-capture loop
-- ────────────────────────────────────────────────────────────────────────────

/-- Closed form of the capture loop: it appends one captured frame per
remaining index, in seek order. -/
theorem captureTrace_eq (capture : ℚ → String) (interval : ℚ) (maxFrames : Nat) :
    ∀ (k currentFrame : Nat) (acc : List (ℚ × String)), maxFrames - currentFrame = k →
      captureTrace capture interval maxFrames currentFrame acc =
        acc ++ (List.range' currentFrame k).map
          (fun i : Nat => ((i : ℚ) * interval, capture ((i : ℚ) * interval)))
  | 0, c, acc, hk => by
      have h : maxFrames ≤ c := by omega
      rw [captureTrace.eq_def, dif_pos h]
      simp
  | k + 1, c, acc, hk => by
      have h : ¬ maxFrames ≤ c := by omega
      rw [captureTrace.eq_def, dif_neg h]
      rw [captureTrace_eq capture interval maxFrames k (c + 1) _ (by omega)]
      rw [List.range'_succ, List.map_cons]
      simp

-- ────────────────────────────────────────────────────────────────────────────
-- C6: frame extraction count and timestamps
-- ────────────────────────────────────────────────────────────────────────────

/-- C6: for a finite-duration source and positive frame budget N,
`extractFrames` captures exactly N frames; the seeks are issued strictly
sequentially (the loop structure alternates one seek with one capture), at
the timestamps 0, d/N, 2·d/N, …, (N-1)·d/N in order. -/
theorem claim_C6_extract_frames (capture : ℚ → String) (d : ℚ) (N : Nat)
    (hN : 0 < N) :
    extractFrames capture d N =
      (List.range N).map
        (fun i : Nat => ((i : ℚ) * (d / (N : ℚ)), capture ((i : ℚ) * (d / (N : ℚ))))) ∧
    (extractFrames capture d N).length = N ∧
    (extractFrames capture d N).map Prod.fst =
      (List.range N).map (fun i : Nat => (i : ℚ) * d / (N : ℚ)) := by
  have h1 : extractFrames capture d N =
      (List.range N).map
        (fun i : Nat => ((i : ℚ) * (d / (N : ℚ)), capture ((i : ℚ) * (d / (N : ℚ))))) := by
    show captureTrace capture (d / (N : ℚ)) N 0 [] = _
    rw [captureTrace_eq capture (d / (N : ℚ)) N N 0 [] (by omega)]
    rw [List.range_eq_range']
    simp
  refine ⟨h1, ?_, ?_⟩
  · rw [h1]
    simp
  · rw [h1, List.map_map]
    apply List.map_congr_left
    intro i _
    show (i : ℚ) * (d / (N : ℚ)) = (i : ℚ) * d / (N : ℚ)
    rw [mul_div_assoc]

/-- Witness for `claim_C6_extract_frames` with duration 10 and N = 2. -/
theorem claim_C6_witness :
    extractFrames (fun _ => "b64") 10 2 =
      (List.range 2).map
        (fun i : Nat => ((i : ℚ) * ((10 : ℚ) / (2 : ℚ)), "b64")) ∧
    (extractFrames (fun _ => "b64") 10 2).length = 2 :=
  ⟨(claim_C6_extract_frames (fun _ => "b64") 10 2 (by norm_num)).1,
   (claim_C6_extract_frames (fun _ => "b64") 10 2 (by norm_num)).2.1⟩

-- ────────────────────────────────────────────────────────────────────────────
-- C7: provider failure leaves the cache untouched
-- ────────────────────────────────────────────────────────────────────────────

/-- C7 (amended): when the provider call throws or returns an empty
`functionCalls` list, `runMode` writes nothing — the whole cache, that key
and every other key alike, is exactly what it was before the run; in
particular no partial entry is created.  (The original claim, that the key's
state is Empty afterwards, fails on a forced re-run of an already-cached
mode: the failed run retains the previous entry — see
`claim_C7_counterexample`.) -/
theorem claim_C7_failure_leaves_cache (cache : ResultCache)
    (providerConfig : Option ProviderConfig) (mode : String) (msg : String) :
    runModeCache cache providerConfig mode (ProviderResponse.fail msg) = cache ∧
    runModeCache cache providerConfig mode (ProviderResponse.ok []) = cache ∧
    ∀ (cfg2 : Option ProviderConfig) (mode2 : String),
      getCached cfg2 (runModeCache cache providerConfig mode (ProviderResponse.fail msg))
        mode2 = getCached cfg2 cache mode2 := by
  have h1 : runModeCache cache providerConfig mode (ProviderResponse.fail msg) = cache := by
    cases providerConfig <;> rfl
  have h2 : runModeCache cache providerConfig mode (ProviderResponse.ok []) = cache := by
    cases providerConfig <;> rfl
  exact ⟨h1, h2, fun cfg2 mode2 => by rw [h1]⟩

/-- C7, claim as frozen, refuted at a concrete input: after a successful
`Diagram` run is cached, a forced re-run whose provider call throws leaves
the previously cached entry in place — the per-key state is not Empty
afterwards. -/
theorem claim_C7_counterexample :
    getCached (some (ProviderConfig.mk "gemini" "k" (some "gemini-2.5-flash")))
      (runModeCache
        (setCached (some (ProviderConfig.mk "gemini" "k" (some "gemini-2.5-flash")))
          emptyCache "Diagram" (ModeResult.diagram "m" "p" none))
        (some (ProviderConfig.mk "gemini" "k" (some "gemini-2.5-flash")))
        "Diagram" (ProviderResponse.fail "network error"))
      "Diagram" = some (ModeResult.diagram "m" "p" none) ∧
    some (ModeResult.diagram "m" "p" none) ≠ (none : Option ModeResult) := by
  refine ⟨by decide, by decide⟩

-- ────────────────────────────────────────────────────────────────────────────
-- C8: cache invalidation on video load and provider round-trip
-- ────────────────────────────────────────────────────────────────────────────

/-- C8: dropping a new video clears every cache key unconditionally (for any
provider and any upload outcome), and switching the provider away from
Gemini and back — two `handleProviderChange` transitions with a video loaded
— likewise empties every key of the result cache. -/
theorem claim_C8_cache_invalidation :
    (∀ (s : AppState) (cfg : ProviderConfig) (vf : VideoFile) (objectUrl : String)
        (uploadResult : Except String UploadedFile),
      s.providerConfig = some cfg →
      ∀ k, (uploadVideo s (some vf) objectUrl uploadResult).resultCache k = none) ∧
    (∀ (s : AppState) (c1 c2 : ProviderConfig) (f : UploadedFile) (u : String),
      s.file = some f → s.vidUrl = some u →
      c1.provider ≠ "gemini" → c2.provider = "gemini" →
      ∀ k, (handleProviderChange (handleProviderChange s c1) c2).resultCache k = none) := by
  constructor
  · intro s cfg vf objectUrl uploadResult hcfg k
    unfold uploadVideo
    rw [hcfg]
    cases uploadResult <;> by_cases hg : cfg.provider = "gemini" <;>
      simp [hg, emptyCache]
  · intro s c1 c2 f u hf hu h1 h2 k
    unfold handleProviderChange
    simp only [hf, hu, if_neg h1, if_pos h2]
    simp [emptyCache]

/-- Witness for `claim_C8_cache_invalidation` on concrete states whose cache
holds an entry beforehand. -/
theorem claim_C8_witness :
    (uploadVideo
      (AppState.mk (some (ProviderConfig.mk "openai" "k" (some "gpt-4o")))
        (some "blob:1") (some (UploadedFile.mk "blob:1" "video/mp4" (some [])))
        (setCached (some (ProviderConfig.mk "openai" "k" (some "gpt-4o")))
          emptyCache "Diagram" (ModeResult.diagram "m" "p" none)))
      (some (VideoFile.mk "v.mp4" "video/mp4")) "blob:2"
      (Except.error "upload rejected")).resultCache "openai:gpt-4o:Diagram" = none ∧
    (handleProviderChange
      (handleProviderChange
        (AppState.mk (some (ProviderConfig.mk "gemini" "k" (some "gemini-2.5-flash")))
          (some "blob:1") (some (UploadedFile.mk "files/abc" "video/mp4" none))
          (setCached (some (ProviderConfig.mk "gemini" "k" (some "gemini-2.5-flash")))
            emptyCache "Diagram" (ModeResult.diagram "m" "p" none)))
        (ProviderConfig.mk "openai" "k2" (some "gpt-4o")))
      (ProviderConfig.mk "gemini" "k" (some "gemini-2.5-flash"))).resultCache
        "gemini:gemini-2.5-flash:Diagram" = none :=
  ⟨claim_C8_cache_invalidation.1
      (AppState.mk (some (ProviderConfig.mk "openai" "k" (some "gpt-4o")))
        (some "blob:1") (some (UploadedFile.mk "blob:1" "video/mp4" (some [])))
        (setCached (some (ProviderConfig.mk "openai" "k" (some "gpt-4o")))
          emptyCache "Diagram" (ModeResult.diagram "m" "p" none)))
      (ProviderConfig.mk "openai" "k" (some "gpt-4o"))
      (VideoFile.mk "v.mp4" "video/mp4") "blob:2" (Except.error "upload rejected")
      rfl "openai:gpt-4o:Diagram",
   claim_C8_cache_invalidation.2
      (AppState.mk (some (ProviderConfig.mk "gemini" "k" (some "gemini-2.5-flash")))
        (some "blob:1") (some (UploadedFile.mk "files/abc" "video/mp4" none))
        (setCached (some (ProviderConfig.mk "gemini" "k" (some "gemini-2.5-flash")))
          emptyCache "Diagram" (ModeResult.diagram "m" "p" none)))
      (ProviderConfig.mk "openai" "k2" (some "gpt-4o"))
      (ProviderConfig.mk "gemini" "k" (some "gemini-2.5-flash"))
      (UploadedFile.mk "files/abc" "video/mp4" none) "blob:1"
      rfl rfl (by decide) rfl "gemini:gemini-2.5-flash:Diagram"⟩

-- ────────────────────────────────────────────────────────────────────────────
-- Helper lemmas: cache-key injectivity
-- ────────────────────────────────────────────────────────────────────────────

/-- Two strings agreeing in their data are equal. -/
theorem string_data_inj (s t : String) (h : s.data = t.data) : s = t := by
  cases s
  cases t
  simp_all

/-- Splitting a character list at a separator absent from both prefixes is
unambiguous. -/
theorem splitAtColon : ∀ (a b x y : List Char), ':' ∉ a → ':' ∉ b →
    a ++ ':' :: x = b ++ ':' :: y → a = b ∧ x = y
  | [], [], _, _, _, _, h => by
      simp only [List.nil_append] at h
      injection h with _ h2
      exact ⟨rfl, h2⟩
  | [], d :: bt, _, _, _, hb, h => by
      exfalso
      simp only [List.nil_append, List.cons_append] at h
      injection h with h1 _
      apply hb
      rw [← h1]
      exact List.mem_cons_self _ _
  | c :: at2, [], _, _, ha, _, h => by
      exfalso
      simp only [List.nil_append, List.cons_append] at h
      injection h with h1 _
      apply ha
      rw [h1]
      exact List.mem_cons_self _ _
  | c :: at2, d :: bt, x, y, ha, hb, h => by
      simp only [List.cons_append] at h
      injection h with h1 h2
      obtain ⟨hab, hxy⟩ := splitAtColon at2 bt x y
        (fun hm => ha (List.mem_cons_of_mem _ hm))
        (fun hm => hb (List.mem_cons_of_mem _ hm)) h2
      exact ⟨by rw [h1, hab], hxy⟩

/-- The character data of a cache key is the colon-joined component data. -/
theorem cacheKey_data (config : ProviderConfig) (mode : String) :
    (cacheKey config mode).data =
      config.provider.data ++ ':' ::
        ((config.model.getD "").data ++ ':' :: mode.data) := by
  have hc : (":" : String).data = [':'] := rfl
  show (config.provider ++ ":" ++ config.model.getD "" ++ ":" ++ mode).data = _
  simp [String.data_append, hc]

/-- For colon-free components, the cache key is injective in the triple
(provider, effective model string, mode). -/
theorem cacheKey_inj (c1 c2 : ProviderConfig) (mo1 mo2 : String)
    (hp1 : colonFree c1.provider) (hm1 : colonFree (c1.model.getD ""))
    (hp2 : colonFree c2.provider) (hm2 : colonFree (c2.model.getD ""))
    (hne : c1.provider ≠ c2.provider ∨ c1.model.getD "" ≠ c2.model.getD "" ∨
      mo1 ≠ mo2) :
    cacheKey c1 mo1 ≠ cacheKey c2 mo2 := by
  intro heq
  have hd := congrArg String.data heq
  rw [cacheKey_data, cacheKey_data] at hd
  obtain ⟨hp, hrest⟩ := splitAtColon _ _ _ _ hp1 hp2 hd
  obtain ⟨hm, hmo⟩ := splitAtColon _ _ _ _ hm1 hm2 hrest
  rcases hne with h | h | h
  · exact h (string_data_inj _ _ hp)
  · exact h (string_data_inj _ _ hm)
  · exact h (string_data_inj _ _ hmo)

-- ────────────────────────────────────────────────────────────────────────────
-- C9: cache-key isolation
-- ────────────────────────────────────────────────────────────────────────────

/-- C9 (amended): for two cache triples whose components are colon-free
strings — as the real provider identifiers, model names and mode names all
are — and which differ in the provider, in the effective model string
(`model ?? ''`), or in the mode, a `setCached` write under the first triple
is not observable through `getCached` under the second.  (For fully
arbitrary strings the original claim fails: the colon-joined key collides,
see `claim_C9_counterexample`.) -/
theorem claim_C9_cache_isolation (c1 c2 : ProviderConfig) (mo1 mo2 : String)
    (cache : ResultCache) (r : ModeResult)
    (hp1 : colonFree c1.provider) (hm1 : colonFree (c1.model.getD ""))
    (hp2 : colonFree c2.provider) (hm2 : colonFree (c2.model.getD ""))
    (hne : c1.provider ≠ c2.provider ∨ c1.model.getD "" ≠ c2.model.getD "" ∨
      mo1 ≠ mo2) :
    getCached (some c2) (setCached (some c1) cache mo1 r) mo2 =
      getCached (some c2) cache mo2 := by
  show (if cacheKey c2 mo2 = cacheKey c1 mo1 then some r else cache (cacheKey c2 mo2)) =
    cache (cacheKey c2 mo2)
  rw [if_neg (fun hcontra =>
    cacheKey_inj c1 c2 mo1 mo2 hp1 hm1 hp2 hm2 hne hcontra.symm)]

/-- C9, claim as frozen, refuted at a concrete input: the triples
("a", "b:c", "m") and ("a:b", "c", "m") differ in the provider component,
yet their colon-joined keys coincide, so a write under the first is read
back under the second. -/
theorem claim_C9_counterexample :
    (ProviderConfig.mk "a" "" (some "b:c")).provider ≠
      (ProviderConfig.mk "a:b" "" (some "c")).provider ∧
    getCached (some (ProviderConfig.mk "a:b" "" (some "c"))) emptyCache "m" = none ∧
    getCached (some (ProviderConfig.mk "a:b" "" (some "c")))
      (setCached (some (ProviderConfig.mk "a" "" (some "b:c"))) emptyCache "m"
        (ModeResult.diagram "" "" none)) "m" =
      some (ModeResult.diagram "" "" none) := by
  refine ⟨by decide, by decide, by decide⟩

/-- Witness for `claim_C9_cache_isolation`: a write under
(openai, gpt-4o, Diagram) is invisible when reading
(gemini, gpt-4o, Diagram). -/
theorem claim_C9_witness :
    getCached (some (ProviderConfig.mk "gemini" "" (some "gpt-4o")))
      (setCached (some (ProviderConfig.mk "openai" "" (some "gpt-4o"))) emptyCache
        "Diagram" (ModeResult.timecodes [])) "Diagram" =
      getCached (some (ProviderConfig.mk "gemini" "" (some "gpt-4o"))) emptyCache
        "Diagram" :=
  claim_C9_cache_isolation
    (ProviderConfig.mk "openai" "" (some "gpt-4o"))
    (ProviderConfig.mk "gemini" "" (some "gpt-4o"))
    "Diagram" "Diagram" emptyCache (ModeResult.timecodes [])
    (by decide) (by decide) (by decide) (by decide) (Or.inl (by decide))

end VideoAnalyzer
